import Mathlib

/-!
Verification development for the elastic-search repository (Go).

The Go code is shallowly embedded as follows:
* `map[string]V` becomes an association list `List (String × V)`;
  `Gomap.set` models `m[k] = v` (replace if present, append otherwise),
  `Gomap.erase` models `delete(m, k)`, `Gomap.lookup` models `m[k]` reads.
  Go map iteration order is unspecified, so list order is a determinization;
  every statement proved about iteration is order-independent (counts,
  one-clause-per-entry, membership).
* `any` (JSON) values become the inductive `GoVal`; Go `float64` numbers are
  modelled as `ℚ` (the claims checked here do not depend on binary rounding).
* Go `int`/`int64` become `Int` (all values involved are far from 2^63, and the
  embedded code performs no arithmetic that can overflow).
* `time.Time` becomes an abstract `Nat` tick supplied explicitly to the
  operations that read the clock.
* Functions that mutate a struct through a pointer and return `error` become
  pure functions returning the new struct, or `Except AppError` when they can
  fail.
* `strings.ReplaceAll` is only ever used with one-character patterns in the
  embedded code, so it is modelled as a per-character substitution on
  `List Char`; `strings.TrimSpace` is modelled by `trimChars`.
-/

namespace ES

/-! ## Go map model -/

namespace Gomap

/-- Read `m[k]` (first matching key; Go maps have unique keys). -/
def lookup {V : Type} (m : List (String × V)) (k : String) : Option V :=
  match m with
  | [] => none
  | p :: rest => if p.1 = k then some p.2 else lookup rest k

/-- Go `m[k] = v`: replace the value at `k` if present, append otherwise. -/
def set {V : Type} (m : List (String × V)) (k : String) (v : V) :
    List (String × V) :=
  if ∃ p ∈ m, p.1 = k then
    m.map (fun p => if p.1 = k then (k, v) else p)
  else
    m ++ [(k, v)]

/-- Go `delete(m, k)`: remove every entry at key `k`. -/
def erase {V : Type} (m : List (String × V)) (k : String) :
    List (String × V) :=
  match m with
  | [] => []
  | p :: rest => if p.1 = k then erase rest k else p :: erase rest k

/-- The key list of the map. -/
def keys {V : Type} (m : List (String × V)) : List String :=
  m.map (fun p => p.1)

/-- All entries at key `k` carry the value `v`, and `k` is present. -/
def OnlyVal {V : Type} (m : List (String × V)) (k : String) (v : V) : Prop :=
  (∃ p ∈ m, p.1 = k) ∧ ∀ p ∈ m, p.1 = k → p.2 = v

end Gomap

/-! ## JSON / `any` values -/

/-- Go `any` values as produced by `encoding/json` decoding: strings,
numbers (`float64`, modelled as `ℚ`), booleans, arrays, objects, `nil`. -/
inductive GoVal : Type where
  | str (s : String)
  | num (q : ℚ)
  | bool (b : Bool)
  | arr (xs : List GoVal)
  | obj (fields : List (String × GoVal))
  | null

/-- Go `map[string]any`. -/
abbrev Smap : Type := List (String × GoVal)

/-! ## Domain entities (`api/internal/domain/entity`) -/

/-- `entity.SortField`. -/
structure SortField : Type where
  Field : String
  Order : String
deriving DecidableEq

/-- `entity.SearchQuery`.  The Go field `Sort` is called `Sorts` here only
because `Sort` is reserved in Lean. -/
structure SearchQuery : Type where
  Query : String
  Index : String
  Filters : List (String × String)
  From : Int
  Size : Int
  Sorts : List SortField
deriving DecidableEq

/-- `entity.NewSearchQuery` (Go zero value fills `Index`). -/
def NewSearchQuery (query : String) : SearchQuery :=
  { Query := query, Index := "", Filters := [], From := 0, Size := 10,
    Sorts := [] }

/-- `entity.SearchQuery.SetIndex`. -/
def SearchQuery.SetIndex (sq : SearchQuery) (index : String) : SearchQuery :=
  { sq with Index := index }

/-- `entity.SearchQuery.AddFilter`. -/
def SearchQuery.AddFilter (sq : SearchQuery) (field value : String) :
    SearchQuery :=
  { sq with Filters := Gomap.set sq.Filters field value }

/-- `entity.SearchQuery.SetPagination`. -/
def SearchQuery.SetPagination (sq : SearchQuery) (from_ size : Int) :
    SearchQuery :=
  { sq with From := from_, Size := size }

/-- `entity.SearchQuery.AddSort`. -/
def SearchQuery.AddSort (sq : SearchQuery) (field order : String) :
    SearchQuery :=
  { sq with Sorts := sq.Sorts ++ [{ Field := field, Order := order }] }

/-- `entity.Hit`; a `nil` Go source map is `none`. -/
structure Hit : Type where
  Index : String
  ID : String
  Score : ℚ
  Source : Option Smap

/-- `entity.SearchResult`. -/
structure SearchResult : Type where
  Query : SearchQuery
  Hits : List Hit
  Total : Int
  MaxScore : ℚ
  Took : Int
  TimedOut : Bool

/-- `entity.NewSearchResult` (Go zero values fill the remaining fields). -/
def NewSearchResult (query : SearchQuery) : SearchResult :=
  { Query := query, Hits := [], Total := 0, MaxScore := 0, Took := 0,
    TimedOut := false }

/-- `entity.SearchResult.AddHit`. -/
def SearchResult.AddHit (sr : SearchResult) (hit : Hit) : SearchResult :=
  { sr with Hits := sr.Hits ++ [hit] }

/-- `entity.Document`; `time.Time` is an abstract `Nat` tick. -/
structure Document : Type where
  ID : String
  Index : String
  Source : Smap
  Version : Int
  Created : Nat
  Modified : Nat

/-- `entity.NewDocument` at clock value `now`. -/
def NewDocument (index : String) (source : Smap) (now : Nat) : Document :=
  { ID := "", Index := index, Source := source, Version := 1, Created := now,
    Modified := now }

/-- `entity.Document.SetID`. -/
def Document.SetID (d : Document) (id : String) : Document :=
  { d with ID := id }

/-- `entity.Document.UpdateSource` at clock value `now`: replaces the source,
increments the version, refreshes the modification time. -/
def Document.UpdateSource (d : Document) (source : Smap) (now : Nat) :
    Document :=
  { d with Source := source, Version := d.Version + 1, Modified := now }

/-! ## Errors (`api/pkg/errors`) -/

/-- `errors.AppError`, restricted to code and message (the only fields the
claims depend on). -/
structure AppError : Type where
  Code : String
  Message : String
deriving DecidableEq

/-- `errors.ErrCodeValidationFailed`. -/
def ErrCodeValidationFailed : String := "VALIDATION_FAILED"

/-- `errors.NewAppError(errors.ErrCodeValidationFailed, msg)`. -/
def validationError (msg : String) : AppError :=
  { Code := ErrCodeValidationFailed, Message := msg }

/-! ## Search service (`service.SearchService`) -/

/-- `strings.ReplaceAll` for a one-character pattern `c` (the only shape the
embedded code uses): every occurrence of `c` becomes `r`. -/
def replaceChar (s : List Char) (c : Char) (r : List Char) : List Char :=
  s.flatMap (fun x => if x = c then r else [x])

/-- `strings.TrimSpace`. -/
def trimChars (s : List Char) : List Char :=
  ((s.dropWhile Char.isWhitespace).reverse.dropWhile Char.isWhitespace).reverse

/-- `SearchService.sanitizeQuery`: remove angle brackets, escape double
quotes, trim whitespace. -/
def sanitizeQuery (query : String) : String :=
  let cs := replaceChar query.toList '<' []
  let cs := replaceChar cs '>' []
  let cs := replaceChar cs '"' ['\\', '"']
  (trimChars cs).asString

/-- The allow-list of `SearchService.isValidSortField`. -/
def allowedSortFields : List String :=
  ["_score", "_id", "created_at", "updated_at", "name", "title", "date",
   "price", "rating"]

/-- `SearchService.isValidSortField` (a Go map-literal membership test with
`false` default). -/
def isValidSortField (field : String) : Bool :=
  allowedSortFields.contains field

/-- `SearchService.applySearchBusinessRules`; the Go method mutates the
query and returns `error`, modelled as `Except`. -/
def applySearchBusinessRules (query : SearchQuery) :
    Except AppError SearchQuery :=
  let query := { query with Query := sanitizeQuery query.Query }
  let query := if 1000 < query.Size then { query with Size := 1000 } else query
  if 10000 < query.From then
    Except.error (validationError ("From offset cannot exceed 10000"))
  else
    let query :=
      if query.Sorts.isEmpty then query.AddSort ("_score") ("desc") else query
    match query.Sorts.find? (fun sf => ! isValidSortField sf.Field) with
    | some sf =>
      Except.error (validationError (("Invalid sort field: ") ++ sf.Field))
    | none => Except.ok query

/-- The fixed list of `SearchService.removeSensitiveFields`. -/
def sensitiveFields : List String :=
  ["password", "password_hash", "secret", "token", "api_key", "private_key",
   "ssn", "credit_card"]

/-- `SearchService.removeSensitiveFields`: delete each sensitive key. -/
def removeSensitiveFields (source : Smap) : Smap :=
  sensitiveFields.foldl Gomap.erase source

/-- `SearchService.addComputedFields`; leaves a hit with a `nil` source map
unchanged.  The Go thresholds `0.8` and `0.5` are `4/5` and `1/2`. -/
def addComputedFields (hit : Hit) : Hit :=
  match hit.Source with
  | none => hit
  | some src =>
    let quality : String :=
      if (4 : ℚ)/5 ≤ hit.Score then "high"
      else if (1 : ℚ)/2 ≤ hit.Score then "medium"
      else "low"
    let src := Gomap.set src ("_match_quality") (GoVal.str quality)
    let src := Gomap.set src ("_source_index") (GoVal.str hit.Index)
    { hit with Source := some src }

/-- The per-hit body of the loop in
`SearchService.postProcessSearchResults`: strip sensitive fields when the
source map is non-nil, then add computed fields. -/
def postProcessHit (hit : Hit) : Hit :=
  let hit :=
    match hit.Source with
    | some src => { hit with Source := some (removeSensitiveFields src) }
    | none => hit
  addComputedFields hit

/-- `SearchService.postProcessSearchResults` on a non-nil result; the Go
method returns `error` but no execution path produces one. -/
def postProcessSearchResults (result : SearchResult) : SearchResult :=
  { result with Hits := result.Hits.map postProcessHit }

/-- `SearchService.Search` up to (but not including) the backend call:
input validation, size default, query construction and business rules.  On
success the value is exactly the query handed to `Repository.Search`. -/
def searchPrepare (queryStr index : String) (from_ size : Int) :
    Except AppError SearchQuery :=
  if queryStr = "" then
    Except.error (validationError ("Search query cannot be empty"))
  else if size < 0 then
    Except.error (validationError ("Size must be non-negative"))
  else if from_ < 0 then
    Except.error (validationError ("From must be non-negative"))
  else
    let size := if size = 0 then (10 : Int) else size
    let query := NewSearchQuery queryStr
    let query := query.SetIndex index
    let query := query.SetPagination from_ size
    applySearchBusinessRules query

/-- `SearchService.AdvancedSearch` up to the backend call: validation, size
default, filter and sort accumulation (entries with empty field or value,
and sort entries whose order is neither asc nor desc, are silently
dropped), then business rules. -/
def advancedSearchPrepare (queryStr index : String)
    (filters : List (String × String)) (sortFields : List SortField)
    (from_ size : Int) : Except AppError SearchQuery :=
  if queryStr = "" then
    Except.error (validationError ("Search query cannot be empty"))
  else if size < 0 then
    Except.error (validationError ("Size must be non-negative"))
  else if from_ < 0 then
    Except.error (validationError ("From must be non-negative"))
  else
    let size := if size = 0 then (10 : Int) else size
    let query := NewSearchQuery queryStr
    let query := query.SetIndex index
    let query := query.SetPagination from_ size
    let query := filters.foldl
      (fun q p => if p.1 ≠ "" ∧ p.2 ≠ "" then q.AddFilter p.1 p.2 else q)
      query
    let query := sortFields.foldl
      (fun q sf =>
        if sf.Field ≠ "" ∧ (sf.Order = "asc" ∨ sf.Order = "desc") then
          q.AddSort sf.Field sf.Order
        else q)
      query
    applySearchBusinessRules query

/-! ## Repository (`infrastructure/elasticsearch/repository.go`) -/

/-- The base full-text clause of `buildSearchQuery`. -/
def multiMatchClause (query : String) : GoVal :=
  GoVal.obj [("multi_match", GoVal.obj
    [("query", GoVal.str query), ("fields", GoVal.arr [GoVal.str ("*")])])]

/-- One exact-term filter clause. -/
def termClause (field value : String) : GoVal :=
  GoVal.obj [("term", GoVal.obj [(field, GoVal.str value)])]

/-- One sort clause. -/
def sortClause (sf : SortField) : GoVal :=
  GoVal.obj [(sf.Field, GoVal.obj [("order", GoVal.str sf.Order)])]

/-- `Repository.buildSearchQuery`: the JSON body sent to the backend.  The
`_facets` marker key is skipped when collecting term filters, and the base
clause is wrapped in a bool must/filter structure only when at least one
filter clause remains. -/
def buildSearchQuery (query : SearchQuery) : GoVal :=
  let base := multiMatchClause query.Query
  let filters := (query.Filters.filter (fun p => p.1 ≠ "_facets")).map
    (fun p => termClause p.1 p.2)
  let queryClause :=
    if 0 < query.Filters.length then
      if 0 < filters.length then
        GoVal.obj
          [("bool", GoVal.obj [("must", base), ("filter", GoVal.arr filters)])]
      else base
    else base
  let esQuery := [("query", queryClause),
    ("from", GoVal.num (query.From : ℚ)),
    ("size", GoVal.num (query.Size : ℚ))]
  let esQuery :=
    if 0 < query.Sorts.length then
      esQuery ++ [("sort", GoVal.arr (query.Sorts.map sortClause))]
    else esQuery
  GoVal.obj esQuery

/-- Key access in a JSON object value. -/
def esField (v : GoVal) (key : String) : Option GoVal :=
  match v with
  | GoVal.obj m => Gomap.lookup m key
  | _ => none

/-- `getString`: type-asserting read with `""` default. -/
def getString (m : Smap) (key : String) : String :=
  match Gomap.lookup m key with
  | some (GoVal.str s) => s
  | _ => ""

/-- `getFloat64`: type-asserting read with `0.0` default. -/
def getFloat64 (m : Smap) (key : String) : ℚ :=
  match Gomap.lookup m key with
  | some (GoVal.num q) => q
  | _ => 0

/-- `getMap`: type-asserting read with `nil` default. -/
def getMap (m : Smap) (key : String) : Option Smap :=
  match Gomap.lookup m key with
  | some (GoVal.obj o) => some o
  | _ => none

/-- Go `int64(f)` for `f : float64`: truncation toward zero. -/
def truncToInt (q : ℚ) : Int :=
  q.num.tdiv (q.den : Int)

/-- The `Hit` built from one element of `raw.hits.hits` when the element is
a JSON object (the loop body of `buildSearchResult`); elements that are not
objects fail the type assertion and produce nothing. -/
def hitOfElem (v : GoVal) : Option Hit :=
  match v with
  | GoVal.obj hitMap => some
      { Index := getString hitMap ("_index"), ID := getString hitMap ("_id"),
        Score := getFloat64 hitMap ("_score"),
        Source := getMap hitMap ("_source") }
  | _ => none

/-- `Repository.buildSearchResult`. -/
def buildSearchResult (query : SearchQuery) (result : Smap) : SearchResult :=
  let sr := NewSearchResult query
  let sr :=
    match Gomap.lookup result ("hits") with
    | some (GoVal.obj hits) =>
      let sr :=
        match Gomap.lookup hits ("total") with
        | some (GoVal.obj total) =>
          match Gomap.lookup total ("value") with
          | some (GoVal.num v) => { sr with Total := truncToInt v }
          | _ => sr
        | _ => sr
      let sr :=
        match Gomap.lookup hits ("max_score") with
        | some (GoVal.num ms) => { sr with MaxScore := ms }
        | _ => sr
      match Gomap.lookup hits ("hits") with
      | some (GoVal.arr hitsList) =>
        hitsList.foldl
          (fun sr v =>
            match hitOfElem v with
            | some h => sr.AddHit h
            | none => sr) sr
      | _ => sr
    | _ => sr
  let sr :=
    match Gomap.lookup result ("took") with
    | some (GoVal.num t) => { sr with Took := truncToInt t }
    | _ => sr
  match Gomap.lookup result ("timed_out") with
  | some (GoVal.bool b) => { sr with TimedOut := b }
  | _ => sr

/-- The raw `hits.hits` array of a backend response (empty when absent or
of the wrong shape). -/
def rawHitsList (result : Smap) : List GoVal :=
  match Gomap.lookup result ("hits") with
  | some (GoVal.obj hits) =>
    match Gomap.lookup hits ("hits") with
    | some (GoVal.arr l) => l
    | _ => []
  | _ => []

/-- Read a key of a hit's source map (a `nil` map read gives `none`). -/
def sourceLookup (hit : Hit) (key : String) : Option GoVal :=
  match hit.Source with
  | some m => Gomap.lookup m key
  | none => none

/-! ## Abbreviations and concrete instances used by the proofs -/

/-- The query produced by the successful path of
`applySearchBusinessRules`: sanitized text, clamped size, stamped default
sort.  `absr_spec` below proves this is what the embedded function
returns. -/
def ruledQuery (query : SearchQuery) : SearchQuery :=
  let q2 : SearchQuery := { query with
    Query := sanitizeQuery query.Query,
    Size := if 1000 < query.Size then 1000 else query.Size }
  if q2.Sorts.isEmpty then q2.AddSort ("_score") ("desc") else q2

/-- A backend response whose only hit element is an object carrying just
`_index` (so `_id`, `_score` and `_source` are all missing). -/
def c1Response : Smap :=
  [("hits", GoVal.obj
    [("hits", GoVal.arr [GoVal.obj [("_index", GoVal.str ("i"))]])])]

/-- A plain query for feeding `buildSearchResult`. -/
def c1Query : SearchQuery := NewSearchQuery ("q")

/-- A valid search query whose text is a single double-quote character. -/
def c2Query : SearchQuery :=
  { Query := "\"", Index := "", Filters := [], From := 0, Size := 10,
    Sorts := [{ Field := "_score", Order := "desc" }] }

/-- `c2Query` after one application of the business rules: the quote has
been escaped once (backslash quote). -/
def c2Query1 : SearchQuery := { c2Query with Query := "\\\"" }

/-- `c2Query` after two applications: the backslash has doubled. -/
def c2Query2 : SearchQuery := { c2Query with Query := "\\\\\"" }

/-- A hit whose source map contains `password` together with a second
sensitive key `secret` and a harmless key `name`. -/
def c3Hit : Hit :=
  { Index := "i", ID := "1", Score := 1, Source :=
      some [("password", GoVal.str ("x")), ("secret", GoVal.str ("y")),
        ("name", GoVal.str ("n"))] }

/-- A search result holding exactly `c3Hit`. -/
def c3Result : SearchResult :=
  { NewSearchResult c1Query with Hits := [c3Hit] }

namespace Gomap

theorem lookup_erase_self {V : Type} (m : List (String × V)) (k : String) :
    lookup (erase m k) k = none := by
  induction m with
  | nil => rfl
  | cons p rest ih =>
    by_cases h : p.1 = k
    · simpa [erase, h] using ih
    · simpa [erase, lookup, h] using ih

theorem lookup_erase_ne {V : Type} (m : List (String × V)) (k k' : String)
    (h : k' ≠ k) : lookup (erase m k) k' = lookup m k' := by
  induction m with
  | nil => rfl
  | cons p rest ih =>
    have hkk : ¬ k = k' := fun hc => h hc.symm
    by_cases hp : p.1 = k
    · simpa [erase, lookup, hp, hkk] using ih
    · by_cases hp' : p.1 = k'
      · simp [erase, lookup, hp, hp', h]
      · simpa [erase, lookup, hp, hp'] using ih

theorem not_mem_keys_erase_self {V : Type} (m : List (String × V))
    (k : String) : k ∉ keys (erase m k) := by
  induction m with
  | nil => simp [erase, keys]
  | cons p rest ih =>
    by_cases h : p.1 = k
    · simpa [erase, keys, h] using ih
    · have : ¬ k = p.1 := fun hc => h hc.symm
      simpa [erase, keys, h, this] using ih

theorem not_mem_keys_erase {V : Type} (m : List (String × V)) (k k' : String)
    (h : k' ∉ keys m) : k' ∉ keys (erase m k) := by
  induction m with
  | nil => simp [erase, keys]
  | cons p rest ih =>
    simp only [keys, List.map_cons, List.mem_cons, not_or] at h
    by_cases hp : p.1 = k
    · simpa [erase, keys, hp] using ih (by simpa [keys] using h.2)
    · have := ih (by simpa [keys] using h.2)
      simp only [erase, hp, if_false, keys, List.map_cons, List.mem_cons, not_or]
      exact ⟨h.1, by simpa [keys] using this⟩

theorem erase_eq_self {V : Type} (m : List (String × V)) (k : String)
    (h : k ∉ keys m) : erase m k = m := by
  induction m with
  | nil => rfl
  | cons p rest ih =>
    simp only [keys, List.map_cons, List.mem_cons, not_or] at h
    have hp : ¬ p.1 = k := fun hc => h.1 hc.symm
    simp only [erase, hp, if_false]
    rw [ih (by simpa [keys] using h.2)]

theorem lookup_map_update_self {V : Type} (m : List (String × V))
    (k : String) (v : V) (hex : ∃ p ∈ m, p.1 = k) :
    lookup (m.map (fun p => if p.1 = k then (k, v) else p)) k = some v := by
  induction m with
  | nil => simp at hex
  | cons p rest ih =>
    by_cases hp : p.1 = k
    · simp [lookup, hp]
    · obtain ⟨q, hq, hqk⟩ := hex
      rcases List.mem_cons.mp hq with rfl | hq'
      · exact absurd hqk hp
      · simpa [lookup, hp] using ih ⟨q, hq', hqk⟩

theorem lookup_append_single_self {V : Type} (m : List (String × V))
    (k : String) (v : V) (hex : ¬ ∃ p ∈ m, p.1 = k) :
    lookup (m ++ [(k, v)]) k = some v := by
  induction m with
  | nil => simp [lookup]
  | cons p rest ih =>
    have hp : ¬ p.1 = k := fun hc => hex ⟨p, by simp, hc⟩
    have hex' : ¬ ∃ q ∈ rest, q.1 = k := by
      rintro ⟨q, hq, hqk⟩
      exact hex ⟨q, by simp [hq], hqk⟩
    simpa [lookup, hp] using ih hex'

theorem lookup_set_self {V : Type} (m : List (String × V)) (k : String)
    (v : V) : lookup (set m k v) k = some v := by
  unfold set
  by_cases hex : ∃ p ∈ m, p.1 = k
  · simpa [hex] using lookup_map_update_self m k v hex
  · simpa [hex] using lookup_append_single_self m k v hex

theorem lookup_map_update_ne {V : Type} (m : List (String × V))
    (k k' : String) (v : V) (h : k' ≠ k) :
    lookup (m.map (fun p => if p.1 = k then (k, v) else p)) k' =
      lookup m k' := by
  induction m with
  | nil => rfl
  | cons p rest ih =>
    by_cases hp : p.1 = k
    · have h1 : ¬ k = k' := fun hc => h hc.symm
      have h2 : ¬ p.1 = k' := fun hc => h (by rw [← hc, hp])
      simpa [lookup, hp, h1, h2] using ih
    · by_cases hp' : p.1 = k'
      · simp [lookup, hp, hp', h]
      · simpa [lookup, hp, hp'] using ih

theorem lookup_append_single_ne {V : Type} (m : List (String × V))
    (k k' : String) (v : V) (h : k' ≠ k) :
    lookup (m ++ [(k, v)]) k' = lookup m k' := by
  have hkk : ¬ k = k' := fun hc => h hc.symm
  induction m with
  | nil => simp [lookup, hkk]
  | cons p rest ih =>
    by_cases hp' : p.1 = k'
    · simp [lookup, hp']
    · simpa [lookup, hp'] using ih

theorem lookup_set_ne {V : Type} (m : List (String × V)) (k k' : String)
    (v : V) (h : k' ≠ k) : lookup (set m k v) k' = lookup m k' := by
  unfold set
  by_cases hex : ∃ p ∈ m, p.1 = k
  · simpa [hex] using lookup_map_update_ne m k k' v h
  · simpa [hex] using lookup_append_single_ne m k k' v h

theorem not_mem_keys_set {V : Type} (m : List (String × V)) (k k' : String)
    (v : V) (hne : k' ≠ k) (h : k' ∉ keys m) : k' ∉ keys (set m k v) := by
  unfold set
  by_cases hex : ∃ p ∈ m, p.1 = k
  · simp only [hex, if_true]
    intro hc
    simp only [keys, List.map_map, List.mem_map, Function.comp] at hc
    obtain ⟨p, hp, hpk⟩ := hc
    by_cases hk : p.1 = k
    · simp only [hk, if_true] at hpk
      exact hne hpk.symm
    · simp only [hk, if_false] at hpk
      exact h (by simp only [keys, List.mem_map]; exact ⟨p, hp, hpk⟩)
  · simp only [hex, if_false]
    intro hc
    simp only [keys, List.map_append, List.mem_append, List.map_cons,
      List.map_nil, List.mem_cons, List.not_mem_nil, or_false] at hc
    rcases hc with hc | hc
    · exact h (by simpa [keys] using hc)
    · exact hne hc

theorem map_id_of_forall {α : Type} (l : List α) (f : α → α)
    (h : ∀ x ∈ l, f x = x) : l.map f = l := by
  induction l with
  | nil => rfl
  | cons a t ih =>
    simp only [List.map_cons, h a (by simp)]
    rw [ih fun x hx => h x (by simp [hx])]

theorem set_eq_self_of_onlyVal {V : Type} (m : List (String × V))
    (k : String) (v : V) (h : OnlyVal m k v) : set m k v = m := by
  obtain ⟨hex, hall⟩ := h
  unfold set
  simp only [hex, if_true]
  apply map_id_of_forall
  intro q hq
  by_cases hk : q.1 = k
  · have hv : q.2 = v := hall q hq hk
    obtain ⟨a, b⟩ := q
    simp only at hk hv
    simp [hk, hv]
  · simp [hk]

theorem onlyVal_set {V : Type} (m : List (String × V)) (k : String) (v : V) :
    OnlyVal (set m k v) k v := by
  unfold set
  by_cases hex : ∃ p ∈ m, p.1 = k
  · simp only [hex, if_true]
    obtain ⟨p, hp, hpk⟩ := hex
    constructor
    · exact ⟨(k, v), List.mem_map.mpr ⟨p, hp, by simp [hpk]⟩, rfl⟩
    · intro q hq hqk
      obtain ⟨r, hr, hrq⟩ := List.mem_map.mp hq
      by_cases hrk : r.1 = k
      · simp only [hrk, if_true] at hrq
        simp [← hrq]
      · simp only [hrk, if_false] at hrq
        subst hrq
        exact absurd hqk hrk
  · simp only [hex, if_false]
    constructor
    · exact ⟨(k, v), by simp, rfl⟩
    · intro q hq hqk
      rcases List.mem_append.mp hq with hqm | hqr
      · exact absurd ⟨q, hqm, hqk⟩ hex
      · simp only [List.mem_singleton] at hqr
        simp [hqr]

theorem onlyVal_set_ne {V : Type} (m : List (String × V)) (k k' : String)
    (v v' : V) (hne : k ≠ k') (h : OnlyVal m k v) :
    OnlyVal (set m k' v') k v := by
  obtain ⟨⟨p, hp, hpk⟩, hall⟩ := h
  have hpk' : ¬ p.1 = k' := fun hc => hne (by rw [← hpk, hc])
  unfold set
  by_cases hex : ∃ q ∈ m, q.1 = k'
  · simp only [hex, if_true]
    constructor
    · exact ⟨p, List.mem_map.mpr ⟨p, hp, by simp [hpk']⟩, hpk⟩
    · intro q hq hqk
      obtain ⟨r, hr, hrq⟩ := List.mem_map.mp hq
      by_cases hrk : r.1 = k'
      · simp only [hrk, if_true] at hrq
        rw [← hrq] at hqk
        exact absurd hqk.symm hne
      · simp only [hrk, if_false] at hrq
        exact hrq ▸ hall r hr (by rw [hrq]; exact hqk)
  · simp only [hex, if_false]
    constructor
    · exact ⟨p, List.mem_append.mpr (Or.inl hp), hpk⟩
    · intro q hq hqk
      rcases List.mem_append.mp hq with hqm | hqr
      · exact hall q hqm hqk
      · simp only [List.mem_singleton] at hqr
        rw [hqr] at hqk
        exact absurd hqk.symm hne

theorem lookup_eq_none_of_not_mem_keys {V : Type} (m : List (String × V))
    (k : String) (h : k ∉ keys m) : lookup m k = none := by
  induction m with
  | nil => rfl
  | cons p rest ih =>
    simp only [keys, List.map_cons, List.mem_cons, not_or] at h
    have hp : ¬ p.1 = k := fun hc => h.1 hc.symm
    simpa [lookup, hp] using ih (by simpa [keys] using h.2)

theorem not_mem_keys_foldl_erase_of {V : Type} (fs : List String)
    (m : List (String × V)) (k : String) (h : k ∉ keys m) :
    k ∉ keys (fs.foldl erase m) := by
  induction fs generalizing m with
  | nil => simpa using h
  | cons f rest ih =>
    simp only [List.foldl_cons]
    exact ih (erase m f) (not_mem_keys_erase m f k h)

theorem not_mem_keys_foldl_erase_mem {V : Type} (fs : List String)
    (m : List (String × V)) (k : String) (h : k ∈ fs) :
    k ∉ keys (fs.foldl erase m) := by
  induction fs generalizing m with
  | nil => simp at h
  | cons f rest ih =>
    simp only [List.foldl_cons]
    rcases List.mem_cons.mp h with rfl | hmem
    · exact not_mem_keys_foldl_erase_of rest (erase m k) k
        (not_mem_keys_erase_self m k)
    · exact ih (erase m f) hmem

theorem lookup_foldl_erase_not_mem {V : Type} (fs : List String)
    (m : List (String × V)) (k : String) (h : k ∉ fs) :
    lookup (fs.foldl erase m) k = lookup m k := by
  induction fs generalizing m with
  | nil => rfl
  | cons f rest ih =>
    simp only [List.foldl_cons]
    have hk : k ≠ f := fun hc => h (by simp [hc])
    rw [ih (erase m f) (fun hc => h (by simp [hc]))]
    exact lookup_erase_ne m f k hk

theorem foldl_erase_eq_self {V : Type} (fs : List String)
    (m : List (String × V)) (h : ∀ f ∈ fs, f ∉ keys m) :
    fs.foldl erase m = m := by
  induction fs with
  | nil => rfl
  | cons f rest ih =>
    simp only [List.foldl_cons]
    rw [erase_eq_self m f (h f (by simp))]
    exact ih (fun g hg => h g (by simp [hg]))


end Gomap

/-! ## Character-list lemmas for sanitization -/

theorem dropWhile_idem {α : Type} (p : α → Bool) (l : List α) :
    (l.dropWhile p).dropWhile p = l.dropWhile p := by
  induction l with
  | nil => rfl
  | cons a t ih =>
    by_cases ha : p a
    · simpa [List.dropWhile_cons, ha] using ih
    · simp [List.dropWhile_cons, ha]

theorem exists_append_dropWhile {α : Type} (p : α → Bool) (l : List α) :
    ∃ t, l = t ++ l.dropWhile p := by
  induction l with
  | nil => exact ⟨[], rfl⟩
  | cons a t ih =>
    by_cases ha : p a
    · obtain ⟨u, hu⟩ := ih
      refine ⟨a :: u, ?_⟩
      simp only [List.dropWhile_cons, ha, if_true, List.cons_append,
        List.cons.injEq, true_and]
      exact hu
    · exact ⟨[], by simp [List.dropWhile_cons, ha]⟩

theorem dropWhile_length_le {α : Type} (p : α → Bool) (l : List α) :
    (l.dropWhile p).length ≤ l.length := by
  induction l with
  | nil => simp
  | cons a t ih =>
    by_cases ha : p a
    · simp only [List.dropWhile_cons, ha, if_true, List.length_cons]
      exact le_trans ih (by simp)
    · simp [List.dropWhile_cons, ha]

theorem dropWhile_prefix_fix {α : Type} (p : α → Bool) (t zs : List α)
    (h : (t ++ zs).dropWhile p = t ++ zs) : t.dropWhile p = t := by
  cases t with
  | nil => rfl
  | cons x t' =>
    by_cases hx : p x
    · exfalso
      rw [List.cons_append, List.dropWhile_cons] at h
      simp only [hx, if_true] at h
      have hle := dropWhile_length_le p (t' ++ zs)
      rw [h] at hle
      simp only [List.length_cons, List.length_append] at hle
      omega
    · simp [List.dropWhile_cons, hx]

theorem mem_of_mem_dropWhile {α : Type} {x : α} (p : α → Bool) (l : List α)
    (h : x ∈ l.dropWhile p) : x ∈ l := by
  obtain ⟨t, ht⟩ := exists_append_dropWhile p l
  rw [ht]
  exact List.mem_append.mpr (Or.inr h)

theorem dropWhile_rtrim {α : Type} (p : α → Bool) (u : List α)
    (hu : u.dropWhile p = u) :
    ((u.reverse.dropWhile p).reverse).dropWhile p =
      (u.reverse.dropWhile p).reverse := by
  obtain ⟨t, ht⟩ := exists_append_dropWhile p u.reverse
  have hdecomp : u = (u.reverse.dropWhile p).reverse ++ t.reverse := by
    calc u = u.reverse.reverse := by simp
    _ = (t ++ u.reverse.dropWhile p).reverse := by rw [← ht]
    _ = (u.reverse.dropWhile p).reverse ++ t.reverse := by
          rw [List.reverse_append]
  apply dropWhile_prefix_fix p _ t.reverse
  rw [← hdecomp]
  exact hu

theorem trimChars_idem (s : List Char) :
    trimChars (trimChars s) = trimChars s := by
  unfold trimChars
  have h1 : (s.dropWhile Char.isWhitespace).dropWhile Char.isWhitespace =
      s.dropWhile Char.isWhitespace := dropWhile_idem _ s
  have h2 := dropWhile_rtrim Char.isWhitespace (s.dropWhile Char.isWhitespace) h1
  rw [h2]
  simp only [List.reverse_reverse]
  rw [dropWhile_idem]

theorem mem_trimChars {x : Char} {s : List Char} (h : x ∈ trimChars s) :
    x ∈ s := by
  unfold trimChars at h
  rw [List.mem_reverse] at h
  have h1 := mem_of_mem_dropWhile _ _ h
  rw [List.mem_reverse] at h1
  exact mem_of_mem_dropWhile _ _ h1

theorem mem_replaceChar_nil {x : Char} {s : List Char} {c : Char}
    (h : x ∈ replaceChar s c []) : x ∈ s := by
  unfold replaceChar at h
  rw [List.mem_flatMap] at h
  obtain ⟨a, ha, hx⟩ := h
  by_cases hac : a = c
  · simp [hac] at hx
  · simp only [hac, if_false, List.mem_singleton] at hx
    rwa [hx]

theorem not_mem_replaceChar_self (s : List Char) (c : Char) :
    c ∉ replaceChar s c [] := by
  intro h
  unfold replaceChar at h
  rw [List.mem_flatMap] at h
  obtain ⟨a, ha, hx⟩ := h
  by_cases hac : a = c
  · simp [hac] at hx
  · simp only [hac, if_false, List.mem_singleton] at hx
    exact hac hx.symm

theorem replaceChar_eq_self (s : List Char) (c : Char) (r : List Char)
    (h : c ∉ s) : replaceChar s c r = s := by
  unfold replaceChar
  induction s with
  | nil => rfl
  | cons a t ih =>
    have hac : ¬ a = c := fun hc => h (by simp [hc])
    rw [List.flatMap_cons]
    simp only [hac, if_false]
    rw [ih (fun hc => h (List.mem_cons_of_mem a hc))]
    rfl

theorem sanitizeQuery_idem (s : String) (h : ('"' : Char) ∉ s.toList) :
    sanitizeQuery (sanitizeQuery s) = sanitizeQuery s := by
  have hq1 : ('"' : Char) ∉ replaceChar s.toList '<' [] :=
    fun hc => h (mem_replaceChar_nil hc)
  have hq2 : ('"' : Char) ∉
      replaceChar (replaceChar s.toList '<' []) '>' [] :=
    fun hc => hq1 (mem_replaceChar_nil hc)
  have h3 : replaceChar (replaceChar (replaceChar s.toList '<' []) '>' [])
      '"' ['\\', '"'] = replaceChar (replaceChar s.toList '<' []) '>' [] :=
    replaceChar_eq_self _ _ _ hq2
  have hfirst : sanitizeQuery s =
      (trimChars (replaceChar (replaceChar s.toList '<' []) '>' [])).asString := by
    show (trimChars (replaceChar (replaceChar (replaceChar s.toList '<' [])
      '>' []) '"' ['\\', '"'])).asString = _
    rw [h3]
  set t := trimChars (replaceChar (replaceChar s.toList '<' []) '>' []) with htdef
  have hlt : ('<' : Char) ∉ t := fun hc =>
    not_mem_replaceChar_self s.toList '<'
      (mem_replaceChar_nil (mem_trimChars hc))
  have hgt : ('>' : Char) ∉ t := fun hc =>
    not_mem_replaceChar_self (replaceChar s.toList '<' []) '>'
      (mem_trimChars hc)
  have hqt : ('"' : Char) ∉ t := fun hc => hq2 (mem_trimChars hc)
  rw [hfirst]
  have hsecond : sanitizeQuery t.asString =
      (trimChars (replaceChar (replaceChar (replaceChar t '<' []) '>' [])
        '"' ['\\', '"'])).asString := rfl
  rw [hsecond, replaceChar_eq_self _ _ _ hlt, replaceChar_eq_self _ _ _ hgt,
    replaceChar_eq_self _ _ _ hqt, htdef, trimChars_idem]

/-! ## Post-processing lemmas -/

theorem sensitive_ne_computed :
    ∀ f ∈ sensitiveFields, f ≠ "_match_quality" ∧ f ≠ "_source_index" := by
  decide

theorem postProcessHit_source_none (hit : Hit) (h : hit.Source = none) :
    postProcessHit hit = hit := by
  simp only [postProcessHit, addComputedFields, h]

theorem postProcessHit_some (hit : Hit) (src : Smap)
    (h : hit.Source = some src) :
    postProcessHit hit =
      { hit with Source := some (Gomap.set
          (Gomap.set (removeSensitiveFields src) ("_match_quality")
            (GoVal.str (if (4 : ℚ)/5 ≤ hit.Score then "high"
              else if (1 : ℚ)/2 ≤ hit.Score then "medium" else "low")))
          ("_source_index") (GoVal.str hit.Index)) } := by
  simp only [postProcessHit, addComputedFields, h]

theorem postProcessHit_fixed (h : Hit) (m : Smap) (hsrc : h.Source = some m)
    (hrs : removeSensitiveFields m = m)
    (hq : Gomap.set m ("_match_quality")
      (GoVal.str (if (4 : ℚ)/5 ≤ h.Score then "high"
        else if (1 : ℚ)/2 ≤ h.Score then "medium" else "low")) = m)
    (hsi : Gomap.set m ("_source_index") (GoVal.str h.Index) = m) :
    postProcessHit h = h := by
  rw [postProcessHit_some h m hsrc, hrs, hq, hsi]
  obtain ⟨i, d, sc, so⟩ := h
  simp only at hsrc
  simp [hsrc]

theorem postProcessHit_idem (hit : Hit) :
    postProcessHit (postProcessHit hit) = postProcessHit hit := by
  cases hsrc : hit.Source with
  | none => simp [postProcessHit_source_none hit hsrc]
  | some src =>
    have h1 := postProcessHit_some hit src hsrc
    have hmq_si : ("_match_quality" : String) ≠ "_source_index" := by decide
    set qv : GoVal := GoVal.str (if (4 : ℚ)/5 ≤ hit.Score then "high"
      else if (1 : ℚ)/2 ≤ hit.Score then "medium" else "low") with hqv
    set m1 : Smap := removeSensitiveFields src with hm1
    set m2 : Smap := Gomap.set m1 ("_match_quality") qv with hm2
    set m3 : Smap := Gomap.set m2 ("_source_index") (GoVal.str hit.Index)
      with hm3
    have hsrc' : (postProcessHit hit).Source = some m3 := by rw [h1]
    have hsc : (postProcessHit hit).Score = hit.Score := by rw [h1]
    have hidx : (postProcessHit hit).Index = hit.Index := by rw [h1]
    have hkeys : ∀ f ∈ sensitiveFields, f ∉ Gomap.keys m3 := by
      intro f hf
      obtain ⟨hfmq, hfsi⟩ := sensitive_ne_computed f hf
      rw [hm3]
      apply Gomap.not_mem_keys_set _ _ _ _ hfsi
      rw [hm2]
      apply Gomap.not_mem_keys_set _ _ _ _ hfmq
      rw [hm1]
      exact Gomap.not_mem_keys_foldl_erase_mem sensitiveFields src f hf
    have hrs3 : removeSensitiveFields m3 = m3 := by
      unfold removeSensitiveFields
      exact Gomap.foldl_erase_eq_self _ _ hkeys
    have hov_mq : Gomap.OnlyVal m3 ("_match_quality") qv := by
      rw [hm3]
      exact Gomap.onlyVal_set_ne _ _ _ _ _ hmq_si
        (by rw [hm2]; exact Gomap.onlyVal_set _ _ _)
    have hset_mq : Gomap.set m3 ("_match_quality") qv = m3 :=
      Gomap.set_eq_self_of_onlyVal _ _ _ hov_mq
    have hset_si : Gomap.set m3 ("_source_index") (GoVal.str hit.Index) = m3 := by
      rw [hm3]
      exact Gomap.set_eq_self_of_onlyVal _ _ _ (Gomap.onlyVal_set _ _ _)
    apply postProcessHit_fixed (postProcessHit hit) m3 hsrc' hrs3
    · rw [hsc]
      exact hset_mq
    · rw [hidx]
      exact hset_si

theorem postProcessSearchResults_idem (result : SearchResult) :
    postProcessSearchResults (postProcessSearchResults result) =
      postProcessSearchResults result := by
  have hmap : ∀ hs : List Hit,
      (hs.map postProcessHit).map postProcessHit = hs.map postProcessHit := by
    intro hs
    rw [List.map_map]
    apply List.map_congr_left
    intro a _
    exact postProcessHit_idem a
  show { result with
      Hits := (result.Hits.map postProcessHit).map postProcessHit } =
    { result with Hits := result.Hits.map postProcessHit }
  rw [hmap]

/-! ## Business-rule lemmas -/

theorem absr_spec (query : SearchQuery) :
    applySearchBusinessRules query =
      if 10000 < query.From then
        Except.error (validationError ("From offset cannot exceed 10000"))
      else
        match (ruledQuery query).Sorts.find?
            (fun sf => ! isValidSortField sf.Field) with
        | some sf =>
          Except.error (validationError (("Invalid sort field: ") ++ sf.Field))
        | none => Except.ok (ruledQuery query) := by
  unfold applySearchBusinessRules ruledQuery
  by_cases hs : 1000 < query.Size <;> simp [hs]

theorem ruledQuery_fields (query : SearchQuery) :
    (ruledQuery query).Query = sanitizeQuery query.Query ∧
    (ruledQuery query).Index = query.Index ∧
    (ruledQuery query).Filters = query.Filters ∧
    (ruledQuery query).From = query.From ∧
    (ruledQuery query).Size = (if 1000 < query.Size then 1000 else query.Size) ∧
    (ruledQuery query).Sorts = (if query.Sorts.isEmpty then
      [{ Field := "_score", Order := "desc" }] else query.Sorts) := by
  unfold ruledQuery SearchQuery.AddSort
  by_cases he : query.Sorts.isEmpty <;>
    simp_all [List.isEmpty_iff]

theorem ruledQuery_eq_self (q : SearchQuery)
    (hq : sanitizeQuery q.Query = q.Query)
    (hs : ¬ 1000 < q.Size)
    (hsort : q.Sorts.isEmpty = false) :
    ruledQuery q = q := by
  unfold ruledQuery
  obtain ⟨qq, qi, qf, qfr, qsz, qso⟩ := q
  simp only at hq hs hsort
  simp [hq, hs, hsort]

theorem absr_idem (q q' : SearchQuery)
    (hnq : ('"' : Char) ∉ q.Query.toList)
    (h : applySearchBusinessRules q = Except.ok q') :
    applySearchBusinessRules q' = Except.ok q' := by
  rw [absr_spec] at h
  by_cases hfrom : 10000 < q.From
  · simp [hfrom] at h
  · simp only [hfrom, if_false] at h
    cases hfind : (ruledQuery q).Sorts.find?
        (fun sf => ! isValidSortField sf.Field) with
    | some sf =>
      rw [hfind] at h
      simp at h
    | none =>
      rw [hfind] at h
      simp only [Except.ok.injEq] at h
      obtain ⟨hqQ, hqI, hqF, hqFr, hqS, hqSo⟩ := ruledQuery_fields q
      have hfix : ruledQuery q' = q' := by
        apply ruledQuery_eq_self
        · rw [← h, hqQ]
          exact sanitizeQuery_idem q.Query hnq
        · rw [← h, hqS]
          by_cases h1 : 1000 < q.Size <;> simp [h1]
        · rw [← h, hqSo]
          by_cases he : q.Sorts.isEmpty
          · simp [he]
          · have hf : q.Sorts.isEmpty = false := by
              rwa [Bool.not_eq_true] at he
            simp [hf]
      rw [absr_spec]
      have hfrom' : ¬ 10000 < q'.From := by rw [← h, hqFr]; exact hfrom
      simp only [hfrom', if_false]
      have hsorts_eq : q'.Sorts = (ruledQuery q).Sorts := by rw [h]
      rw [hfix, hsorts_eq, hfind]

theorem searchPrepare_ok (queryStr index : String) (from_ size : Int)
    (hq : ¬ queryStr = "") (hs : ¬ size < 0) (hf : ¬ from_ < 0) :
    searchPrepare queryStr index from_ size =
      applySearchBusinessRules
        { Query := queryStr, Index := index, Filters := [], From := from_,
          Size := if size = 0 then 10 else size, Sorts := [] } := by
  unfold searchPrepare NewSearchQuery SearchQuery.SetIndex
    SearchQuery.SetPagination
  simp [hq, hs, hf]

theorem absr_ok_of_sorts_nil (q : SearchQuery) (hfrom : ¬ 10000 < q.From)
    (hsorts : q.Sorts = []) :
    applySearchBusinessRules q = Except.ok (ruledQuery q) ∧
    (ruledQuery q).Sorts = [{ Field := "_score", Order := "desc" }] := by
  obtain ⟨hqQ, hqI, hqF, hqFr, hqS, hqSo⟩ := ruledQuery_fields q
  have hsor : (ruledQuery q).Sorts = [{ Field := "_score", Order := "desc" }] := by
    rw [hqSo]
    simp [hsorts]
  refine ⟨?_, hsor⟩
  rw [absr_spec]
  simp only [hfrom, if_false]
  have hfind : (ruledQuery q).Sorts.find?
      (fun sf => ! isValidSortField sf.Field) = none := by
    rw [hsor]
    rfl
  rw [hfind]

theorem absr_error_invalid_sort (q : SearchQuery) (sf : SortField)
    (hmem : sf ∈ q.Sorts) (hbad : isValidSortField sf.Field = false)
    (hfrom : ¬ 10000 < q.From) :
    ∃ f, isValidSortField f = false ∧
      applySearchBusinessRules q =
        Except.error (validationError (("Invalid sort field: ") ++ f)) := by
  rw [absr_spec]
  simp only [hfrom, if_false]
  obtain ⟨hqQ, hqI, hqF, hqFr, hqS, hqSo⟩ := ruledQuery_fields q
  have hne : (ruledQuery q).Sorts = q.Sorts := by
    rw [hqSo]
    have hie : q.Sorts.isEmpty = false := by
      cases hq : q.Sorts with
      | nil => rw [hq] at hmem; simp at hmem
      | cons a l => simp [hq]
    simp [hie]
  rw [hne]
  cases hfind : q.Sorts.find? (fun sf => ! isValidSortField sf.Field) with
  | none =>
    exfalso
    have hnone := List.find?_eq_none.mp hfind sf hmem
    simp [hbad] at hnone
  | some g =>
    have hg := List.find?_some hfind
    simp only [Bool.not_eq_true'] at hg
    exact ⟨g.Field, hg, rfl⟩

/-! ## Built-query lemmas -/

theorem esField_query (q : SearchQuery) :
    esField (buildSearchQuery q) ("query") =
      some (if 0 < q.Filters.length then
        (if 0 < ((q.Filters.filter (fun p => p.1 ≠ "_facets")).map
            (fun p => termClause p.1 p.2)).length then
          GoVal.obj [("bool", GoVal.obj [("must", multiMatchClause q.Query),
            ("filter", GoVal.arr ((q.Filters.filter (fun p => p.1 ≠ "_facets")).map
              (fun p => termClause p.1 p.2)))])]
        else multiMatchClause q.Query)
      else multiMatchClause q.Query) := by
  unfold buildSearchQuery esField
  by_cases hsor : 0 < q.Sorts.length <;> simp [hsor, Gomap.lookup]

theorem esField_size (q : SearchQuery) :
    esField (buildSearchQuery q) ("size") = some (GoVal.num (q.Size : ℚ)) := by
  unfold buildSearchQuery esField
  by_cases hsor : 0 < q.Sorts.length <;> simp [hsor, Gomap.lookup]

theorem esField_sort_pos (q : SearchQuery) (h : 0 < q.Sorts.length) :
    esField (buildSearchQuery q) ("sort") =
      some (GoVal.arr (q.Sorts.map sortClause)) := by
  unfold buildSearchQuery esField
  simp [h, Gomap.lookup]

theorem foldl_addHit_hits (l : List GoVal) (sr : SearchResult) :
    (l.foldl (fun sr v => match hitOfElem v with
      | some h => sr.AddHit h
      | none => sr) sr).Hits = sr.Hits ++ l.filterMap hitOfElem := by
  induction l generalizing sr with
  | nil => simp
  | cons v t ih =>
    simp only [List.foldl_cons, List.filterMap_cons]
    cases hv : hitOfElem v with
    | some h =>
      rw [ih]
      simp [SearchResult.AddHit]
    | none =>
      rw [ih]

/-! ## Claim C1 -/

/-- C1, counterexample: the element of `raw.hits.hits` below is an object
missing `_id`, `_score` and `_source`, yet it is not skipped: it appears in
the result as a `Hit` with zero-value defaults. -/
theorem c1_counterexample :
    Gomap.lookup [(("_index" : String), GoVal.str ("i"))] ("_id") = none ∧
    Gomap.lookup [(("_index" : String), GoVal.str ("i"))] ("_score") = none ∧
    Gomap.lookup [(("_index" : String), GoVal.str ("i"))] ("_source") = none ∧
    rawHitsList c1Response = [GoVal.obj [("_index", GoVal.str ("i"))]] ∧
    (buildSearchResult c1Query c1Response).Hits =
      [{ Index := "i", ID := "", Score := 0, Source := none }] :=
  ⟨rfl, rfl, rfl, rfl, rfl⟩

/-- C1 (amended): the result normalizer keeps every object element of
`raw.hits.hits`, including those missing any of the keys `_index`, `_id`,
`_score`, `_source` (the missing fields default to `""`, `0.0`, `nil`); it
skips exactly the elements that are not JSON objects, and it never fails. -/
theorem c1_hits_normalization (query : SearchQuery) (result : Smap) :
    (buildSearchResult query result).Hits =
      (rawHitsList result).filterMap hitOfElem := by
  unfold buildSearchResult rawHitsList
  repeat' split
  all_goals simp_all [foldl_addHit_hits, NewSearchResult]

/-! ## Claim C2 -/

/-- C2, counterexample: the business rules are not idempotent on queries.
`c2Query` (text one double quote) maps to `c2Query1` (escaped once) after
one application and to the different `c2Query2` (backslash doubled) after a
second application. -/
theorem c2_counterexample :
    applySearchBusinessRules c2Query = Except.ok c2Query1 ∧
    applySearchBusinessRules c2Query1 = Except.ok c2Query2 ∧
    c2Query2 ≠ c2Query1 :=
  ⟨rfl, rfl, by decide⟩

/-- C2 (amended): re-applying the search business rules changes nothing
provided the query text contains no double quote — quote escaping is
re-applied on every pass and doubles its backslashes, so it is the one
non-idempotent step; post-processing of results is idempotent without
restriction. -/
theorem c2_idempotence :
    (∀ q q' : SearchQuery, ('"' : Char) ∉ q.Query.toList →
      applySearchBusinessRules q = Except.ok q' →
      applySearchBusinessRules q' = Except.ok q') ∧
    (∀ r : SearchResult,
      postProcessSearchResults (postProcessSearchResults r) =
        postProcessSearchResults r) :=
  ⟨fun q q' hnq h => absr_idem q q' hnq h,
   fun r => postProcessSearchResults_idem r⟩

/-- C2, witness: the amended theorem applied to the concrete quote-free
query of `c1Query`, whose once-ruled form is a fixed point of the rules. -/
theorem c2_idempotence_witness :
    applySearchBusinessRules (ruledQuery c1Query) =
      Except.ok (ruledQuery c1Query) :=
  c2_idempotence.1 c1Query (ruledQuery c1Query) (by decide) rfl

/-! ## Claim C3 -/

/-- C3, counterexample: post-processing a hit that contains `password` does
not leave every other key untouched — the second sensitive key `secret` is
removed as well. -/
theorem c3_counterexample :
    sourceLookup c3Hit ("password") = some (GoVal.str ("x")) ∧
    sourceLookup c3Hit ("secret") = some (GoVal.str ("y")) ∧
    (postProcessSearchResults c3Result).Hits.map
      (fun h => sourceLookup h ("password")) = [none] ∧
    (postProcessSearchResults c3Result).Hits.map
      (fun h => sourceLookup h ("secret")) = [none] :=
  ⟨rfl, rfl, rfl, rfl⟩

/-- C3 (amended): after post-processing, `password` is absent from the
hit's field map — and so is every other key of the fixed sensitive list;
the two computed keys `_match_quality` and `_source_index` are set; every
key outside the sensitive list and the two computed keys keeps its value. -/
theorem c3_password_stripped (result : SearchResult) (hit : Hit) (m : Smap)
    (hmem : hit ∈ result.Hits) (hsrc : hit.Source = some m) :
    ∃ hit', hit' ∈ (postProcessSearchResults result).Hits ∧
      hit' = postProcessHit hit ∧
      ∃ m', hit'.Source = some m' ∧
        Gomap.lookup m' ("password") = none ∧
        (∀ f ∈ sensitiveFields, Gomap.lookup m' f = none) ∧
        (∃ q, Gomap.lookup m' ("_match_quality") = some (GoVal.str q)) ∧
        Gomap.lookup m' ("_source_index") = some (GoVal.str hit.Index) ∧
        (∀ k, k ∉ sensitiveFields → k ≠ "_match_quality" →
          k ≠ "_source_index" → Gomap.lookup m' k = Gomap.lookup m k) := by
  refine ⟨postProcessHit hit, ?_, rfl, ?_⟩
  · exact List.mem_map_of_mem postProcessHit hmem
  · have h1 := postProcessHit_some hit m hsrc
    set qv : String := if (4 : ℚ)/5 ≤ hit.Score then "high"
      else if (1 : ℚ)/2 ≤ hit.Score then "medium" else "low" with hqv
    set m1 : Smap := removeSensitiveFields m with hm1
    set m2 : Smap := Gomap.set m1 ("_match_quality") (GoVal.str qv) with hm2
    set m3 : Smap := Gomap.set m2 ("_source_index") (GoVal.str hit.Index)
      with hm3
    refine ⟨m3, by rw [h1], ?_, ?_, ?_, ?_, ?_⟩
    · have hp : ("password" : String) ∈ sensitiveFields := by decide
      obtain ⟨hpm, hps⟩ := sensitive_ne_computed _ hp
      rw [hm3, Gomap.lookup_set_ne _ _ _ _ hps, hm2,
        Gomap.lookup_set_ne _ _ _ _ hpm, hm1]
      exact Gomap.lookup_eq_none_of_not_mem_keys _ _
        (Gomap.not_mem_keys_foldl_erase_mem sensitiveFields m _ hp)
    · intro f hf
      obtain ⟨hfm, hfs⟩ := sensitive_ne_computed f hf
      rw [hm3, Gomap.lookup_set_ne _ _ _ _ hfs, hm2,
        Gomap.lookup_set_ne _ _ _ _ hfm, hm1]
      exact Gomap.lookup_eq_none_of_not_mem_keys _ _
        (Gomap.not_mem_keys_foldl_erase_mem sensitiveFields m f hf)
    · refine ⟨qv, ?_⟩
      have hms : ("_match_quality" : String) ≠ "_source_index" := by decide
      rw [hm3, Gomap.lookup_set_ne _ _ _ _ hms, hm2]
      exact Gomap.lookup_set_self _ _ _
    · rw [hm3]
      exact Gomap.lookup_set_self _ _ _
    · intro k hks hkm hksi
      rw [hm3, Gomap.lookup_set_ne _ _ _ _ hksi, hm2,
        Gomap.lookup_set_ne _ _ _ _ hkm, hm1]
      exact Gomap.lookup_foldl_erase_not_mem sensitiveFields m k hks

/-- C3, witness: the amended theorem applied to the concrete result holding
`c3Hit`. -/
theorem c3_password_stripped_witness :
    ∃ hit', hit' ∈ (postProcessSearchResults c3Result).Hits ∧
      hit' = postProcessHit c3Hit ∧
      ∃ m', hit'.Source = some m' ∧
        Gomap.lookup m' ("password") = none ∧
        (∀ f ∈ sensitiveFields, Gomap.lookup m' f = none) ∧
        (∃ q, Gomap.lookup m' ("_match_quality") = some (GoVal.str q)) ∧
        Gomap.lookup m' ("_source_index") = some (GoVal.str c3Hit.Index) ∧
        (∀ k, k ∉ sensitiveFields → k ≠ "_match_quality" →
          k ≠ "_source_index" →
          Gomap.lookup m' k = Gomap.lookup [("password", GoVal.str ("x")),
            ("secret", GoVal.str ("y")), ("name", GoVal.str ("n"))] k) :=
  c3_password_stripped c3Result c3Hit
    [("password", GoVal.str ("x")), ("secret", GoVal.str ("y")),
      ("name", GoVal.str ("n"))]
    (List.mem_singleton.mpr rfl) rfl

/-! ## Claim C4 -/

/-- C4: a search request with offset strictly greater than 10000 fails
validation before any backend call (`searchPrepare` covers exactly the
part of `SearchService.Search` before `repo.Search`); when the earlier
guards pass, the error is precisely the offset-exceeded validation error.
The bound is a rejection, not a clamp: offsets up to and including 10000
pass this check and reach the backend unchanged. -/
theorem c4_offset_rejected (queryStr index : String) (from_ size : Int) :
    (10000 < from_ →
      (∃ e, searchPrepare queryStr index from_ size = Except.error e) ∧
      (¬ queryStr = "" → ¬ size < 0 →
        searchPrepare queryStr index from_ size =
          Except.error (validationError ("From offset cannot exceed 10000")))) ∧
    (¬ queryStr = "" → ¬ size < 0 → ¬ from_ < 0 → ¬ 10000 < from_ →
      ∃ q', searchPrepare queryStr index from_ size = Except.ok q' ∧
        q'.From = from_) := by
  constructor
  · intro hbig
    have hf : ¬ from_ < 0 := by omega
    have herr : ¬ queryStr = "" → ¬ size < 0 →
        searchPrepare queryStr index from_ size =
          Except.error (validationError ("From offset cannot exceed 10000")) := by
      intro hq hs
      rw [searchPrepare_ok queryStr index from_ size hq hs hf, absr_spec]
      simp [hbig]
    refine ⟨?_, herr⟩
    by_cases hq : queryStr = ""
    · exact ⟨validationError ("Search query cannot be empty"), by
        unfold searchPrepare
        simp [hq]⟩
    · by_cases hs : size < 0
      · exact ⟨validationError ("Size must be non-negative"), by
          unfold searchPrepare
          simp [hq, hs]⟩
      · exact ⟨validationError ("From offset cannot exceed 10000"), herr hq hs⟩
  · intro hq hs hf hbound
    rw [searchPrepare_ok queryStr index from_ size hq hs hf]
    obtain ⟨hok, hsor⟩ := absr_ok_of_sorts_nil
      { Query := queryStr, Index := index, Filters := [], From := from_,
        Size := if size = 0 then 10 else size, Sorts := [] } hbound rfl
    refine ⟨_, hok, ?_⟩
    exact (ruledQuery_fields _).2.2.2.1

/-- C4, witness: offset 10001 is rejected with the offset-exceeded error,
offset 10000 passes and is forwarded unchanged. -/
theorem c4_offset_rejected_witness :
    searchPrepare ("x") ("idx") 10001 10 =
      Except.error (validationError ("From offset cannot exceed 10000")) ∧
    ∃ q', searchPrepare ("x") ("idx") 10000 10 = Except.ok q' ∧
      q'.From = 10000 :=
  ⟨((c4_offset_rejected ("x") ("idx") 10001 10).1 (by decide)).2
      (by decide) (by decide),
   (c4_offset_rejected ("x") ("idx") 10000 10).2
      (by decide) (by decide) (by decide) (by decide)⟩

/-! ## Claim C5 -/

/-- C5: a query carrying a sort entry whose field is outside the allow-list
always fails validation; when the offset guard does not fire first, the
error is the invalid-sort-field validation error.  The lookup is exact, so
the upper-case variant NAME of the allowed field name is rejected. -/
theorem c5_sort_allowlist (q : SearchQuery) (sf : SortField)
    (hmem : sf ∈ q.Sorts) (hbad : isValidSortField sf.Field = false) :
    (∃ e, applySearchBusinessRules q = Except.error e ∧
      e.Code = ErrCodeValidationFailed) ∧
    (¬ 10000 < q.From → ∃ f, isValidSortField f = false ∧
      applySearchBusinessRules q =
        Except.error (validationError (("Invalid sort field: ") ++ f))) ∧
    isValidSortField ("NAME") = false := by
  refine ⟨?_, fun hfrom => absr_error_invalid_sort q sf hmem hbad hfrom, rfl⟩
  by_cases hfrom : 10000 < q.From
  · refine ⟨validationError ("From offset cannot exceed 10000"), ?_, rfl⟩
    rw [absr_spec]
    simp [hfrom]
  · obtain ⟨f, hfbad, herr⟩ := absr_error_invalid_sort q sf hmem hbad hfrom
    exact ⟨validationError (("Invalid sort field: ") ++ f), herr, rfl⟩

/-- C5, witness: a query sorting on NAME (upper-case variant of the allowed
field name) fails with the invalid-sort-field error. -/
theorem c5_sort_allowlist_witness :
    ∃ e, applySearchBusinessRules
      { Query := "x", Index := "", Filters := [], From := 0, Size := 10,
        Sorts := [{ Field := "NAME", Order := "asc" }] } =
      Except.error e ∧ e.Code = ErrCodeValidationFailed :=
  (c5_sort_allowlist
    { Query := "x", Index := "", Filters := [], From := 0, Size := 10,
      Sorts := [{ Field := "NAME", Order := "asc" }] }
    { Field := "NAME", Order := "asc" }
    (List.mem_singleton.mpr rfl) rfl).1

theorem absr_ok_inv (q q' : SearchQuery)
    (h : applySearchBusinessRules q = Except.ok q') : q' = ruledQuery q := by
  rw [absr_spec] at h
  by_cases hfrom : 10000 < q.From
  · simp [hfrom] at h
  · simp only [hfrom, if_false] at h
    cases hfind : (ruledQuery q).Sorts.find?
        (fun sf => ! isValidSortField sf.Field) with
    | some sf =>
      rw [hfind] at h
      simp at h
    | none =>
      rw [hfind] at h
      simp only [Except.ok.injEq] at h
      exact h.symm

/-! ## Claim C6 -/

/-- C6: when the filter map is non-empty after excluding the `_facets`
marker key, the built query clause is a boolean structure with the
full-text clause as must and exactly one term clause per remaining filter
entry; when nothing remains (in particular when `_facets` is the only
filter) the clause is the plain un-wrapped match query. -/
theorem c6_filter_clauses (q : SearchQuery) :
    (q.Filters.filter (fun p => p.1 ≠ "_facets") = [] →
      esField (buildSearchQuery q) ("query") =
        some (multiMatchClause q.Query)) ∧
    (q.Filters.filter (fun p => p.1 ≠ "_facets") ≠ [] →
      esField (buildSearchQuery q) ("query") = some (GoVal.obj
        [("bool", GoVal.obj [("must", multiMatchClause q.Query),
          ("filter", GoVal.arr
            ((q.Filters.filter (fun p => p.1 ≠ "_facets")).map
              (fun p => termClause p.1 p.2)))])]) ∧
      ((q.Filters.filter (fun p => p.1 ≠ "_facets")).map
        (fun p => termClause p.1 p.2)).length =
        (q.Filters.filter (fun p => p.1 ≠ "_facets")).length) := by
  rw [esField_query]
  constructor
  · intro hr
    have hlen0 : ((q.Filters.filter (fun p => p.1 ≠ "_facets")).map
        (fun p => termClause p.1 p.2)).length = 0 := by
      rw [hr]
      rfl
    by_cases h0 : 0 < q.Filters.length
    · rw [if_pos h0, if_neg (by rw [hlen0]; omega)]
    · rw [if_neg h0]
  · intro hr
    have h1 : 0 < (q.Filters.filter (fun p => p.1 ≠ "_facets")).length :=
      List.length_pos.mpr hr
    have h1m : 0 < ((q.Filters.filter (fun p => p.1 ≠ "_facets")).map
        (fun p => termClause p.1 p.2)).length := by
      rw [List.length_map]
      exact h1
    have h0 : 0 < q.Filters.length :=
      lt_of_lt_of_le h1 (List.length_filter_le _ _)
    rw [if_pos h0, if_pos h1m]
    exact ⟨rfl, by rw [List.length_map]⟩

/-- C6, witness: two filters yield exactly two ANDed term clauses; a
`_facets`-only filter map yields the plain match query. -/
theorem c6_filter_clauses_witness :
    esField (buildSearchQuery
      { Query := "x", Index := "", Filters := [("a", "1"), ("b", "2")],
        From := 0, Size := 10, Sorts := [] }) ("query") =
      some (GoVal.obj
        [("bool", GoVal.obj [("must", multiMatchClause ("x")),
          ("filter", GoVal.arr [termClause ("a") ("1"),
            termClause ("b") ("2")])])]) ∧
    esField (buildSearchQuery
      { Query := "x", Index := "", Filters := [("_facets", "f1,f2")],
        From := 0, Size := 10, Sorts := [] }) ("query") =
      some (multiMatchClause ("x")) :=
  ⟨((c6_filter_clauses
      { Query := "x", Index := "", Filters := [("a", "1"), ("b", "2")],
        From := 0, Size := 10, Sorts := [] }).2 (by decide)).1,
   (c6_filter_clauses
      { Query := "x", Index := "", Filters := [("_facets", "f1,f2")],
        From := 0, Size := 10, Sorts := [] }).1 (by decide)⟩

/-! ## Claim C7 -/

/-- C7: a request with size strictly greater than 1000 is not rejected; it
succeeds, and the effective size reaching the backend — both the `Size`
field passed to `WithSize` and the `size` entry of the built query body —
is exactly 1000. -/
theorem c7_size_clamped (queryStr index : String) (from_ size : Int)
    (hq : ¬ queryStr = "") (hf : ¬ from_ < 0) (hbound : ¬ 10000 < from_)
    (hbig : 1000 < size) :
    ∃ q', searchPrepare queryStr index from_ size = Except.ok q' ∧
      q'.Size = 1000 ∧
      esField (buildSearchQuery q') ("size") =
        some (GoVal.num (1000 : ℚ)) := by
  have hs : ¬ size < 0 := by omega
  have hnz : ¬ size = 0 := by omega
  rw [searchPrepare_ok queryStr index from_ size hq hs hf]
  obtain ⟨hok, _⟩ := absr_ok_of_sorts_nil
    { Query := queryStr, Index := index, Filters := [], From := from_,
      Size := if size = 0 then 10 else size, Sorts := [] } hbound rfl
  have hsize : (ruledQuery
      { Query := queryStr, Index := index, Filters := [], From := from_,
        Size := if size = 0 then 10 else size, Sorts := [] }).Size = 1000 := by
    rw [(ruledQuery_fields _).2.2.2.2.1]
    simp only [hnz, if_false, hbig, if_true]
  refine ⟨_, hok, hsize, ?_⟩
  rw [esField_size, hsize]
  norm_num

/-- C7, witness: requested size 5000 reaches the backend as exactly 1000. -/
theorem c7_size_clamped_witness :
    ∃ q', searchPrepare ("x") ("idx") 0 5000 = Except.ok q' ∧
      q'.Size = 1000 ∧
      esField (buildSearchQuery q') ("size") =
        some (GoVal.num (1000 : ℚ)) :=
  c7_size_clamped ("x") ("idx") 0 5000 (by decide) (by decide) (by decide)
    (by decide)

/-! ## Claim C8 -/

/-- C8: a query whose sort list is empty is stamped with the single default
sort clause, so the built query's `sort` entry is exactly
`[_score: order desc]`; and every query that passes the business rules
yields a built query with a non-empty `sort` entry. -/
theorem c8_default_sort (q : SearchQuery) :
    (q.Sorts = [] → ∀ q', applySearchBusinessRules q = Except.ok q' →
      q'.Sorts = [{ Field := "_score", Order := "desc" }] ∧
      esField (buildSearchQuery q') ("sort") = some (GoVal.arr
        [GoVal.obj [("_score", GoVal.obj [("order", GoVal.str ("desc"))])]])) ∧
    (∀ q', applySearchBusinessRules q = Except.ok q' →
      ∃ sorts, esField (buildSearchQuery q') ("sort") =
        some (GoVal.arr sorts) ∧ sorts ≠ []) := by
  constructor
  · intro hnil q' hok
    have hq' := absr_ok_inv q q' hok
    have hsor : q'.Sorts = [{ Field := "_score", Order := "desc" }] := by
      rw [hq', (ruledQuery_fields q).2.2.2.2.2]
      simp [hnil]
    refine ⟨hsor, ?_⟩
    rw [esField_sort_pos q' (by rw [hsor]; decide), hsor]
    rfl
  · intro q' hok
    have hq' := absr_ok_inv q q' hok
    have hne : q'.Sorts ≠ [] := by
      rw [hq', (ruledQuery_fields q).2.2.2.2.2]
      by_cases he : q.Sorts.isEmpty
      · simp [he]
      · have hf : q.Sorts.isEmpty = false := by
          rwa [Bool.not_eq_true] at he
        simp only [hf, Bool.false_eq_true, if_false]
        intro hc
        rw [hc] at hf
        simp at hf
    have hpos : 0 < q'.Sorts.length := List.length_pos.mpr hne
    refine ⟨q'.Sorts.map sortClause, esField_sort_pos q' hpos, ?_⟩
    simp [hne]

/-- C8, witness: the theorem applied to `c1Query` (empty sort list). -/
theorem c8_default_sort_witness :
    (ruledQuery c1Query).Sorts = [{ Field := "_score", Order := "desc" }] ∧
    esField (buildSearchQuery (ruledQuery c1Query)) ("sort") =
      some (GoVal.arr [GoVal.obj
        [("_score", GoVal.obj [("order", GoVal.str ("desc"))])]]) :=
  (c8_default_sort c1Query).1 rfl (ruledQuery c1Query) rfl

/-! ## Claim C9 -/

/-- C9: a new document has version exactly 1, `UpdateSource` increments the
version by exactly 1, and after a create followed by the updates of any
list the version is the number of updates plus 1 — it is never reset. -/
theorem c9_version_counter (index : String) (source : Smap) (now : Nat) :
    (NewDocument index source now).Version = 1 ∧
    (∀ (d : Document) (src : Smap) (t : Nat),
      (d.UpdateSource src t).Version = d.Version + 1) ∧
    (∀ updates : List (Smap × Nat),
      (updates.foldl (fun d u => d.UpdateSource u.1 u.2)
        (NewDocument index source now)).Version = updates.length + 1) := by
  refine ⟨rfl, fun d src t => rfl, ?_⟩
  have gen : ∀ (updates : List (Smap × Nat)) (d : Document),
      (updates.foldl (fun d u => d.UpdateSource u.1 u.2) d).Version =
        d.Version + updates.length := by
    intro updates
    induction updates with
    | nil => intro d; simp
    | cons u t ih =>
      intro d
      simp only [List.foldl_cons, List.length_cons]
      rw [ih]
      simp only [Document.UpdateSource]
      omega
  intro updates
  rw [gen updates (NewDocument index source now)]
  simp only [NewDocument]
  omega

/-! ## Claim C10 -/

/-- C10: `AdvancedSearch` silently drops, before any validation, every
filter entry with an empty field or value and every sort entry whose order
is neither asc nor desc — removing such an entry from the input changes
nothing; in particular a request whose only sort entry pairs a disallowed
field with an invalid order succeeds, the entry being discarded and the
default `_score`/desc sort applied. -/
theorem c10_silent_drops (queryStr index : String) (from_ size : Int) :
    (∀ (fs1 fs2 : List (String × String)) (p : String × String)
      (sorts : List SortField), ¬ (p.1 ≠ "" ∧ p.2 ≠ "") →
      advancedSearchPrepare queryStr index (fs1 ++ p :: fs2) sorts
        from_ size =
      advancedSearchPrepare queryStr index (fs1 ++ fs2) sorts from_ size) ∧
    (∀ (ss1 ss2 : List SortField) (sf : SortField)
      (fs : List (String × String)),
      ¬ (sf.Field ≠ "" ∧ (sf.Order = "asc" ∨ sf.Order = "desc")) →
      advancedSearchPrepare queryStr index fs (ss1 ++ sf :: ss2)
        from_ size =
      advancedSearchPrepare queryStr index fs (ss1 ++ ss2) from_ size) ∧
    (∀ sf : SortField, ¬ queryStr = "" → ¬ size < 0 → ¬ from_ < 0 →
      ¬ 10000 < from_ → isValidSortField sf.Field = false →
      ¬ sf.Order = "asc" → ¬ sf.Order = "desc" →
      ∃ q', advancedSearchPrepare queryStr index [] [sf] from_ size =
        Except.ok q' ∧
        q'.Sorts = [{ Field := "_score", Order := "desc" }]) := by
  refine ⟨?_, ?_, ?_⟩
  · intro fs1 fs2 p sorts hp
    unfold advancedSearchPrepare
    by_cases h1 : queryStr = ""
    · simp [h1]
    · by_cases h2 : size < 0
      · simp [h1, h2]
      · by_cases h3 : from_ < 0
        · simp [h1, h2, h3]
        · simp only [h1, h2, h3, if_false]
          have hfold : ∀ q : SearchQuery,
              (fs1 ++ p :: fs2).foldl (fun q p =>
                if p.1 ≠ "" ∧ p.2 ≠ "" then q.AddFilter p.1 p.2 else q) q =
              (fs1 ++ fs2).foldl (fun q p =>
                if p.1 ≠ "" ∧ p.2 ≠ "" then q.AddFilter p.1 p.2 else q) q := by
            intro q
            rw [List.foldl_append, List.foldl_append, List.foldl_cons,
              if_neg hp]
          rw [hfold]
  · intro ss1 ss2 sf fs hsf
    unfold advancedSearchPrepare
    by_cases h1 : queryStr = ""
    · simp [h1]
    · by_cases h2 : size < 0
      · simp [h1, h2]
      · by_cases h3 : from_ < 0
        · simp [h1, h2, h3]
        · simp only [h1, h2, h3, if_false]
          have hfold : ∀ q : SearchQuery,
              (ss1 ++ sf :: ss2).foldl (fun q sf =>
                if sf.Field ≠ "" ∧ (sf.Order = "asc" ∨ sf.Order = "desc")
                then q.AddSort sf.Field sf.Order else q) q =
              (ss1 ++ ss2).foldl (fun q sf =>
                if sf.Field ≠ "" ∧ (sf.Order = "asc" ∨ sf.Order = "desc")
                then q.AddSort sf.Field sf.Order else q) q := by
            intro q
            rw [List.foldl_append, List.foldl_append, List.foldl_cons,
              if_neg hsf]
          rw [hfold]
  · intro sf h1 h2 h3 hbound hbadfield hord1 hord2
    unfold advancedSearchPrepare
    simp only [h1, h2, h3, if_false]
    have hdrop : ¬ (sf.Field ≠ "" ∧ (sf.Order = "asc" ∨ sf.Order = "desc")) := by
      rintro ⟨-, h | h⟩
      · exact hord1 h
      · exact hord2 h
    simp only [List.foldl_nil, List.foldl_cons, if_neg hdrop]
    obtain ⟨hok, hsor⟩ := absr_ok_of_sorts_nil
      (((NewSearchQuery queryStr).SetIndex index).SetPagination from_
        (if size = 0 then 10 else size)) hbound rfl
    exact ⟨_, hok, hsor⟩

/-- C10, witness: the three parts at concrete inputs — a filter entry with
an empty value is dropped, a sort entry with order ascending is dropped,
and a request whose only sort entry is NAME-ascending (disallowed field,
invalid order) succeeds with the default sort. -/
theorem c10_silent_drops_witness :
    (advancedSearchPrepare ("x") ("idx") [("a", "")] [] 0 10 =
      advancedSearchPrepare ("x") ("idx") [] [] 0 10) ∧
    (advancedSearchPrepare ("x") ("idx") []
      [{ Field := "name", Order := "ascending" }] 0 10 =
      advancedSearchPrepare ("x") ("idx") [] [] 0 10) ∧
    (∃ q', advancedSearchPrepare ("x") ("idx") []
      [{ Field := "NAME", Order := "ascending" }] 0 10 = Except.ok q' ∧
      q'.Sorts = [{ Field := "_score", Order := "desc" }]) :=
  ⟨(c10_silent_drops ("x") ("idx") 0 10).1 [] [] ("a", "") [] (by decide),
   (c10_silent_drops ("x") ("idx") 0 10).2.1 [] []
     { Field := "name", Order := "ascending" } [] (by decide),
   (c10_silent_drops ("x") ("idx") 0 10).2.2
     { Field := "NAME", Order := "ascending" } (by decide) (by decide)
     (by decide) (by decide) (by decide) (by decide) (by decide)⟩

end ES
